import Mathlib

/-
  Verification development for the photogrammetry addon
  (src/photogrammetry_addon.py).

  The addon's only piece of real algorithmic logic is the
  OrientByNormalsOperator.execute method (lines 189-213), which sums the
  normals of the selected vertices, normalizes the sum, transforms it to
  world space through the inverse-transpose of the object's world matrix,
  and computes the quaternion rotating the result onto (0,0,1).

  The shallow embedding below models the floating-point arithmetic of the
  host (Blender / mathutils) by exact real arithmetic.  Host functions
  invoked by the addon (mathutils Vector and Matrix methods,
  Vector.rotation_difference, Matrix.inverted, the bpy operator calls)
  are embedded from their documented semantics / reference implementation:
  - Vector division by a zero scalar raises ZeroDivisionError;
  - Matrix.inverted() raises ValueError on a singular matrix, otherwise
    returns the adjugate divided by the determinant;
  - Vector.rotation_difference normalizes copies of both vectors and
    builds the shortest-arc quaternion, with a degenerate branch when the
    cross product has length at most FLT_EPSILON: identity when the dot
    product is positive, otherwise a 180-degree turn about a normalized
    orthogonal axis chosen by the dominant-component rule (ortho_v3_v3).
  CustomUVOperator.execute and CubeCutOperator.execute are pure
  orchestration of host calls; they are embedded as functions producing
  the list of host calls they perform together with the operator result.
-/

noncomputable section

/-- Operator return status, modelling the sets {'FINISHED'} and
{'CANCELLED'} returned by the execute methods. -/
inductive OpResult where
  | FINISHED
  | CANCELLED
deriving DecidableEq

/-- Python exceptions that the orient-by-normals code can raise:
ZeroDivisionError from mathutils vector division by a zero scalar
(line 200) and ValueError from Matrix.inverted() on a singular matrix
(line 203).  The addon defines no exception classes of its own. -/
inductive PyErr where
  | zeroDivisionError
  | valueError
deriving DecidableEq

/-- A 3-component vector (mathutils.Vector of length 3), with real
components standing for the host's floats. -/
@[ext] structure Vec3 where
  x : ℝ
  y : ℝ
  z : ℝ

/-- The zero vector, `Vector()` in mathutils. -/
def Vec3.zero : Vec3 := ⟨0, 0, 0⟩

/-- Componentwise vector addition (`+=` accumulation in the source). -/
def Vec3.add (a b : Vec3) : Vec3 := ⟨a.x + b.x, a.y + b.y, a.z + b.z⟩

/-- Componentwise negation. -/
def Vec3.neg (a : Vec3) : Vec3 := ⟨-a.x, -a.y, -a.z⟩

/-- Scalar multiplication. -/
def Vec3.smul (c : ℝ) (a : Vec3) : Vec3 := ⟨c * a.x, c * a.y, c * a.z⟩

/-- Division of a vector by a scalar, `Vector / float` in mathutils
(line 200 of the source divides by the computed magnitude). -/
def Vec3.divs (a : Vec3) (c : ℝ) : Vec3 := ⟨a.x / c, a.y / c, a.z / c⟩

/-- Dot product. -/
def Vec3.dot (a b : Vec3) : ℝ := a.x * b.x + a.y * b.y + a.z * b.z

/-- Cross product (mathutils cross_v3_v3v3). -/
def Vec3.cross (a b : Vec3) : Vec3 :=
  ⟨a.y * b.z - a.z * b.y, a.z * b.x - a.x * b.z, a.x * b.y - a.y * b.x⟩

/-- Squared magnitude, the expression
`v.x*v.x + v.y*v.y + v.z*v.z` written at line 200 of the source. -/
def Vec3.normSq (a : Vec3) : ℝ := a.x * a.x + a.y * a.y + a.z * a.z

/-- Magnitude: `sqrt(v.x*v.x + v.y*v.y + v.z*v.z)`. -/
def Vec3.length (a : Vec3) : ℝ := Real.sqrt a.normSq

/-- Normalization as performed inside mathutils (normalize_v3): each
component divided by the length.  On the zero vector the host returns
the zero vector, which the real-division-by-zero convention reproduces. -/
def Vec3.normalize (a : Vec3) : Vec3 :=
  ⟨a.x / a.length, a.y / a.length, a.z / a.length⟩

/-- A quaternion (w, x, y, z), as mathutils.Quaternion. -/
@[ext] structure Quat where
  w : ℝ
  x : ℝ
  y : ℝ
  z : ℝ

/-- The identity quaternion, unit_qt in the host. -/
def Quat.one : Quat := ⟨1, 0, 0, 0⟩

/-- Hamilton product, the `@` operator on mathutils quaternions
(mul_qt_qtqt). -/
def Quat.mul (a b : Quat) : Quat :=
  ⟨a.w * b.w - a.x * b.x - a.y * b.y - a.z * b.z,
   a.w * b.x + a.x * b.w + a.y * b.z - a.z * b.y,
   a.w * b.y - a.x * b.z + a.y * b.w + a.z * b.x,
   a.w * b.z + a.x * b.y - a.y * b.x + a.z * b.w⟩

/-- Quaternion conjugate. -/
def Quat.conj (a : Quat) : Quat := ⟨a.w, -a.x, -a.y, -a.z⟩

/-- Squared quaternion norm. -/
def Quat.normSq (a : Quat) : ℝ := a.w * a.w + a.x * a.x + a.y * a.y + a.z * a.z

/-- The rotation action of a (unit) quaternion on a vector: the vector
part of q * (0, v) * conj q. -/
def Quat.rotate (q : Quat) (v : Vec3) : Vec3 :=
  let p := (q.mul ⟨0, v.x, v.y, v.z⟩).mul q.conj
  ⟨p.x, p.y, p.z⟩

/-- A 3x3 matrix, row-major. -/
@[ext] structure Mat3 where
  m00 : ℝ
  m01 : ℝ
  m02 : ℝ
  m10 : ℝ
  m11 : ℝ
  m12 : ℝ
  m20 : ℝ
  m21 : ℝ
  m22 : ℝ

/-- The 3x3 identity matrix. -/
def Mat3.id3 : Mat3 := ⟨1, 0, 0, 0, 1, 0, 0, 0, 1⟩

/-- Matrix-vector product, the `@` operator between a 3x3 mathutils
matrix and a vector (line 203 of the source). -/
def Mat3.mulVec (M : Mat3) (v : Vec3) : Vec3 :=
  ⟨M.m00 * v.x + M.m01 * v.y + M.m02 * v.z,
   M.m10 * v.x + M.m11 * v.y + M.m12 * v.z,
   M.m20 * v.x + M.m21 * v.y + M.m22 * v.z⟩

/-- 3x3 matrix product. -/
def Mat3.mul3 (A B : Mat3) : Mat3 :=
  ⟨A.m00 * B.m00 + A.m01 * B.m10 + A.m02 * B.m20,
   A.m00 * B.m01 + A.m01 * B.m11 + A.m02 * B.m21,
   A.m00 * B.m02 + A.m01 * B.m12 + A.m02 * B.m22,
   A.m10 * B.m00 + A.m11 * B.m10 + A.m12 * B.m20,
   A.m10 * B.m01 + A.m11 * B.m11 + A.m12 * B.m21,
   A.m10 * B.m02 + A.m11 * B.m12 + A.m12 * B.m22,
   A.m20 * B.m00 + A.m21 * B.m10 + A.m22 * B.m20,
   A.m20 * B.m01 + A.m21 * B.m11 + A.m22 * B.m21,
   A.m20 * B.m02 + A.m21 * B.m12 + A.m22 * B.m22⟩

/-- 3x3 transpose. -/
def Mat3.transpose3 (A : Mat3) : Mat3 :=
  ⟨A.m00, A.m10, A.m20, A.m01, A.m11, A.m21, A.m02, A.m12, A.m22⟩

/-- 3x3 determinant. -/
def Mat3.det3 (A : Mat3) : ℝ :=
  A.m00 * (A.m11 * A.m22 - A.m12 * A.m21)
    - A.m01 * (A.m10 * A.m22 - A.m12 * A.m20)
    + A.m02 * (A.m10 * A.m21 - A.m11 * A.m20)

/-- 3x3 inverse by adjugate over determinant (junk when the determinant
is zero; every use below is guarded by a nonzero determinant). -/
def Mat3.inv3 (A : Mat3) : Mat3 :=
  ⟨(A.m11 * A.m22 - A.m12 * A.m21) / A.det3,
   -(A.m01 * A.m22 - A.m02 * A.m21) / A.det3,
   (A.m01 * A.m12 - A.m02 * A.m11) / A.det3,
   -(A.m10 * A.m22 - A.m12 * A.m20) / A.det3,
   (A.m00 * A.m22 - A.m02 * A.m20) / A.det3,
   -(A.m00 * A.m12 - A.m02 * A.m10) / A.det3,
   (A.m10 * A.m21 - A.m11 * A.m20) / A.det3,
   -(A.m00 * A.m21 - A.m01 * A.m20) / A.det3,
   (A.m00 * A.m11 - A.m01 * A.m10) / A.det3⟩

/-- The rotation matrix of a quaternion in homogeneous form; for a unit
quaternion this is Blender's quat_to_mat3, and for every q it satisfies
mulVec (quatMat q) v = q.rotate v. -/
def quatMat (q : Quat) : Mat3 :=
  ⟨q.w * q.w + q.x * q.x - q.y * q.y - q.z * q.z,
   2 * (q.x * q.y - q.w * q.z),
   2 * (q.x * q.z + q.w * q.y),
   2 * (q.x * q.y + q.w * q.z),
   q.w * q.w - q.x * q.x + q.y * q.y - q.z * q.z,
   2 * (q.y * q.z - q.w * q.x),
   2 * (q.x * q.z - q.w * q.y),
   2 * (q.y * q.z + q.w * q.x),
   q.w * q.w - q.x * q.x - q.y * q.y + q.z * q.z⟩

/-- Determinant of a 3x3 block given entrywise (helper for the 4x4
cofactor expansion used by mathutils adjoint_m4_m4). -/
def det3x3 (a b c d e f g h i : ℝ) : ℝ :=
  a * (e * i - f * h) - b * (d * i - f * g) + c * (d * h - e * g)

/-- A 4x4 matrix, row-major (mathutils.Matrix as used for
Object.matrix_world). -/
@[ext] structure Mat4 where
  m00 : ℝ
  m01 : ℝ
  m02 : ℝ
  m03 : ℝ
  m10 : ℝ
  m11 : ℝ
  m12 : ℝ
  m13 : ℝ
  m20 : ℝ
  m21 : ℝ
  m22 : ℝ
  m23 : ℝ
  m30 : ℝ
  m31 : ℝ
  m32 : ℝ
  m33 : ℝ

/-- The 4x4 identity matrix. -/
def Mat4.id4 : Mat4 := ⟨1,0,0,0, 0,1,0,0, 0,0,1,0, 0,0,0,1⟩

/-- 4x4 matrix product. -/
def Mat4.mul4 (A B : Mat4) : Mat4 :=
  ⟨A.m00*B.m00 + A.m01*B.m10 + A.m02*B.m20 + A.m03*B.m30,
   A.m00*B.m01 + A.m01*B.m11 + A.m02*B.m21 + A.m03*B.m31,
   A.m00*B.m02 + A.m01*B.m12 + A.m02*B.m22 + A.m03*B.m32,
   A.m00*B.m03 + A.m01*B.m13 + A.m02*B.m23 + A.m03*B.m33,
   A.m10*B.m00 + A.m11*B.m10 + A.m12*B.m20 + A.m13*B.m30,
   A.m10*B.m01 + A.m11*B.m11 + A.m12*B.m21 + A.m13*B.m31,
   A.m10*B.m02 + A.m11*B.m12 + A.m12*B.m22 + A.m13*B.m32,
   A.m10*B.m03 + A.m11*B.m13 + A.m12*B.m23 + A.m13*B.m33,
   A.m20*B.m00 + A.m21*B.m10 + A.m22*B.m20 + A.m23*B.m30,
   A.m20*B.m01 + A.m21*B.m11 + A.m22*B.m21 + A.m23*B.m31,
   A.m20*B.m02 + A.m21*B.m12 + A.m22*B.m22 + A.m23*B.m32,
   A.m20*B.m03 + A.m21*B.m13 + A.m22*B.m23 + A.m23*B.m33,
   A.m30*B.m00 + A.m31*B.m10 + A.m32*B.m20 + A.m33*B.m30,
   A.m30*B.m01 + A.m31*B.m11 + A.m32*B.m21 + A.m33*B.m31,
   A.m30*B.m02 + A.m31*B.m12 + A.m32*B.m22 + A.m33*B.m32,
   A.m30*B.m03 + A.m31*B.m13 + A.m32*B.m23 + A.m33*B.m33⟩

/-- 4x4 determinant (Laplace expansion along the first row, as
determinant_m4 in the host's math library). -/
def Mat4.det4 (M : Mat4) : ℝ :=
  M.m00 * det3x3 M.m11 M.m12 M.m13 M.m21 M.m22 M.m23 M.m31 M.m32 M.m33
    - M.m01 * det3x3 M.m10 M.m12 M.m13 M.m20 M.m22 M.m23 M.m30 M.m32 M.m33
    + M.m02 * det3x3 M.m10 M.m11 M.m13 M.m20 M.m21 M.m23 M.m30 M.m31 M.m33
    - M.m03 * det3x3 M.m10 M.m11 M.m12 M.m20 M.m21 M.m22 M.m30 M.m31 M.m32

/-- Adjugate of a 4x4 matrix divided by its determinant: the value
Matrix.inverted() computes when the determinant is nonzero
(invert_m4_m4 = adjoint_m4_m4 followed by division by the determinant).
Junk when the determinant is zero; inverted4 below guards that case. -/
def Mat4.inv4m (M : Mat4) : Mat4 :=
  ⟨(det3x3 M.m11 M.m12 M.m13 M.m21 M.m22 M.m23 M.m31 M.m32 M.m33) / M.det4,
   -(det3x3 M.m01 M.m02 M.m03 M.m21 M.m22 M.m23 M.m31 M.m32 M.m33) / M.det4,
   (det3x3 M.m01 M.m02 M.m03 M.m11 M.m12 M.m13 M.m31 M.m32 M.m33) / M.det4,
   -(det3x3 M.m01 M.m02 M.m03 M.m11 M.m12 M.m13 M.m21 M.m22 M.m23) / M.det4,
   -(det3x3 M.m10 M.m12 M.m13 M.m20 M.m22 M.m23 M.m30 M.m32 M.m33) / M.det4,
   (det3x3 M.m00 M.m02 M.m03 M.m20 M.m22 M.m23 M.m30 M.m32 M.m33) / M.det4,
   -(det3x3 M.m00 M.m02 M.m03 M.m10 M.m12 M.m13 M.m30 M.m32 M.m33) / M.det4,
   (det3x3 M.m00 M.m02 M.m03 M.m10 M.m12 M.m13 M.m20 M.m22 M.m23) / M.det4,
   (det3x3 M.m10 M.m11 M.m13 M.m20 M.m21 M.m23 M.m30 M.m31 M.m33) / M.det4,
   -(det3x3 M.m00 M.m01 M.m03 M.m20 M.m21 M.m23 M.m30 M.m31 M.m33) / M.det4,
   (det3x3 M.m00 M.m01 M.m03 M.m10 M.m11 M.m13 M.m30 M.m31 M.m33) / M.det4,
   -(det3x3 M.m00 M.m01 M.m03 M.m10 M.m11 M.m13 M.m20 M.m21 M.m23) / M.det4,
   -(det3x3 M.m10 M.m11 M.m12 M.m20 M.m21 M.m22 M.m30 M.m31 M.m32) / M.det4,
   (det3x3 M.m00 M.m01 M.m02 M.m20 M.m21 M.m22 M.m30 M.m31 M.m32) / M.det4,
   -(det3x3 M.m00 M.m01 M.m02 M.m10 M.m11 M.m12 M.m30 M.m31 M.m32) / M.det4,
   (det3x3 M.m00 M.m01 M.m02 M.m10 M.m11 M.m12 M.m20 M.m21 M.m22) / M.det4⟩

/-- Matrix.inverted() of mathutils: raises ValueError (None here) when
the determinant is zero, otherwise adjugate over determinant. -/
def Mat4.inverted4 (M : Mat4) : Option Mat4 :=
  if M.det4 = 0 then none else some M.inv4m

/-- Matrix.transposed() on a 4x4 matrix. -/
def Mat4.transposed4 (M : Mat4) : Mat4 :=
  ⟨M.m00, M.m10, M.m20, M.m30,
   M.m01, M.m11, M.m21, M.m31,
   M.m02, M.m12, M.m22, M.m32,
   M.m03, M.m13, M.m23, M.m33⟩

/-- Matrix.to_3x3(): the top-left 3x3 block. -/
def Mat4.to3x3 (M : Mat4) : Mat3 :=
  ⟨M.m00, M.m01, M.m02, M.m10, M.m11, M.m12, M.m20, M.m21, M.m22⟩

/-- A world matrix is affine when its bottom row is (0,0,0,1); Blender
object world matrices always have this shape (translation, rotation and
scale only). -/
def Mat4.isAffine (M : Mat4) : Prop :=
  M.m30 = 0 ∧ M.m31 = 0 ∧ M.m32 = 0 ∧ M.m33 = 1

/-- The reference up vector Vector([0, 0, 1]) of line 206. -/
def upVec : Vec3 := ⟨0, 0, 1⟩

/-- Single-precision machine epsilon, the threshold used by the host's
rotation_between_vecs_to_quat for the degenerate (parallel) case. -/
def FLT_EPSILON : ℝ := 1 / 2 ^ 23

/-- The host's ortho_v3_v3: a vector orthogonal to v, built by the
dominant-component rule (axis_dominant_v3_single). -/
def ortho_v3 (v : Vec3) : Vec3 :=
  if |v.x| > |v.y| then
    if |v.x| > |v.z| then ⟨-v.y - v.z, v.x, v.x⟩
    else ⟨v.z, v.z, -v.x - v.y⟩
  else
    if |v.y| > |v.z| then ⟨v.y, -v.x - v.z, v.y⟩
    else ⟨v.z, v.z, -v.x - v.y⟩

/-- mathutils Vector.rotation_difference: normalizes copies of both
vectors, then builds the shortest-arc quaternion
(rotation_between_vecs_to_quat).  When the cross product of the
normalized vectors has length above FLT_EPSILON the result is the
axis-angle quaternion (cos(t/2), sin(t/2) * unit axis) with
cos t = dot product, written below through the half-angle identities
cos(t/2) = sqrt((1+d)/2) and sin(t/2) = sqrt((1-d)/2) for t in [0, pi].
Otherwise: identity when the vectors point the same way (dot > 0), and
a 180-degree turn about a normalized orthogonal axis when opposed. -/
def rotation_difference (v1 v2 : Vec3) : Quat :=
  let a := v1.normalize
  let b := v2.normalize
  let axis := a.cross b
  let len := axis.length
  if FLT_EPSILON < len then
    let d := a.dot b
    Quat.mk (Real.sqrt ((1 + d) / 2))
      (Real.sqrt ((1 - d) / 2) * (axis.x / len))
      (Real.sqrt ((1 - d) / 2) * (axis.y / len))
      (Real.sqrt ((1 - d) / 2) * (axis.z / len))
  else if 0 < a.dot b then
    Quat.one
  else
    let ax := (ortho_v3 a).normalize
    Quat.mk 0 ax.x ax.y ax.z

/-- A mesh vertex as read by the operator: position (MeshVertex.co),
normal, and the selection flag. -/
structure MeshVertex where
  co : Vec3
  normal : Vec3
  select : Bool

/-- Object.rotation_mode values (euler orders abbreviated to one
representative; the operator only ever writes QUATERNION). -/
inductive RotMode where
  | QUATERNION
  | EULER_XYZ
  | AXIS_ANGLE
deriving DecidableEq

/-- The slice of a Blender object the operator touches: the mesh
vertices (read), the world matrix (read), the rotation mode and the
rotation quaternion (written).  rotation_quaternion holds the object's
current orientation as a quaternion; on a rotation-mode switch the host
converts the stored rotation losslessly, so the field is meaningful in
every mode. -/
structure BlenderObject where
  vertices : List MeshVertex
  matrix_world : Mat4
  rotation_mode : RotMode
  rotation_quaternion : Quat

/-- Lines 193-197: accumulate the normals of the selected vertices,
starting from Vector(). -/
def selectedNormalSum (vs : List MeshVertex) : Vec3 :=
  vs.foldl (fun acc v => if v.select then acc.add v.normal else acc) Vec3.zero

/-- The world-space normal of line 203: the normalized accumulator
multiplied by matrix_world.inverted().transposed().to_3x3(). -/
def worldNormalOf (obj : BlenderObject) : Vec3 :=
  let normalAvg := selectedNormalSum obj.vertices
  (obj.matrix_world.inv4m.transposed4.to3x3).mulVec
    (normalAvg.divs normalAvg.length)

/-- Lines 192-206 of OrientByNormalsOperator.execute: the rotation
computation.  The division of line 200 raises ZeroDivisionError when the
magnitude is zero (empty selection or exactly cancelling normals);
Matrix.inverted() at line 203 raises ValueError when matrix_world is
singular. -/
def computeRotation (obj : BlenderObject) : Except PyErr Quat :=
  let normalAvg := selectedNormalSum obj.vertices
  if normalAvg.length = 0 then Except.error PyErr.zeroDivisionError
  else
    match obj.matrix_world.inverted4 with
    | none => Except.error PyErr.valueError
    | some Mi =>
        Except.ok (rotation_difference
          (Mi.transposed4.to3x3.mulVec (normalAvg.divs normalAvg.length))
          upVec)

/-- OrientByNormalsOperator.execute (lines 189-213): compute the
rotation, switch the object to quaternion rotation mode, and
pre-multiply the computed quaternion onto the existing rotation
(rot @ object.rotation_quaternion), returning {'FINISHED'}. -/
def execute (obj : BlenderObject) : Except PyErr (BlenderObject × OpResult) :=
  match computeRotation obj with
  | Except.error e => Except.error e
  | Except.ok rot =>
      Except.ok ({ obj with
        rotation_mode := RotMode.QUATERNION,
        rotation_quaternion := rot.mul obj.rotation_quaternion },
        OpResult.FINISHED)

/-- The object's world matrix after the operator's rotation is applied:
the linear 3x3 block is pre-multiplied by the rotation matrix of the
quaternion, the translation column and the affine bottom row are kept
(the host recomputes matrix_world as translation * rotation * scale,
and the operator changes only the rotation factor). -/
def rotatedWorld (q : Quat) (M : Mat4) : Mat4 :=
  let L := (quatMat q).mul3 M.to3x3
  ⟨L.m00, L.m01, L.m02, M.m03,
   L.m10, L.m11, L.m12, M.m13,
   L.m20, L.m21, L.m22, M.m23,
   M.m30, M.m31, M.m32, M.m33⟩

/-- Host operator calls performed by CustomUVOperator.execute. -/
inductive HostCall where
  | mode_set_edit
  | mesh_select_all
  | smart_uv_project
  | editmode_toggle
deriving DecidableEq

/-- CustomUVOperator.execute (lines 155-171): when the active object has
fewer than 40000 vertices, enter edit mode, select everything, run the
smart UV projection and toggle edit mode back; otherwise perform no host
call.  Either way the operator returns {'FINISHED'}. -/
def customUVExecute (lowPoly : BlenderObject) : List HostCall × OpResult :=
  if lowPoly.vertices.length < 40000 then
    ([HostCall.mode_set_edit, HostCall.mesh_select_all,
      HostCall.smart_uv_project, HostCall.editmode_toggle],
     OpResult.FINISHED)
  else
    ([], OpResult.FINISHED)

/-- Host calls performed by CubeCutOperator.execute (object identifiers
are abstract names). -/
inductive CubeCutCall where
  | primitive_cube_add
  | display_as_bounds
  | modifiers_new_boolean
  | modifier_apply
  | select_all_deselect
  | select_set (objId : Nat)
  | object_delete
deriving DecidableEq

/-- CubeCutOperator.execute (lines 31-60).  first_call spawns the bounds
cube.  Otherwise the cut requires exactly two selected objects and
returns {'CANCELLED'} without any host call when that fails; with two
selected objects it adds an INTERSECT boolean modifier to the active
object, applies it, and deletes the bounds cube. -/
def cubeCutExecute (firstCall : Bool) (selected : List Nat) (active : Nat) :
    List CubeCutCall × OpResult :=
  if firstCall then
    ([CubeCutCall.primitive_cube_add, CubeCutCall.display_as_bounds],
     OpResult.FINISHED)
  else if selected.length ≠ 2 then
    ([], OpResult.CANCELLED)
  else
    let cube := if selected.getD 0 0 = active then selected.getD 1 0
                else selected.getD 0 0
    ([CubeCutCall.modifiers_new_boolean, CubeCutCall.modifier_apply,
      CubeCutCall.select_all_deselect, CubeCutCall.select_set cube,
      CubeCutCall.object_delete],
     OpResult.FINISHED)

end

theorem Vec3.normSq_nonneg (a : Vec3) : 0 ≤ a.normSq := by
  have hx := mul_self_nonneg a.x
  have hy := mul_self_nonneg a.y
  have hz := mul_self_nonneg a.z
  unfold Vec3.normSq
  linarith

theorem Vec3.length_nonneg (a : Vec3) : 0 ≤ a.length := Real.sqrt_nonneg _

theorem Vec3.length_sq (a : Vec3) : a.length * a.length = a.normSq :=
  Real.mul_self_sqrt a.normSq_nonneg

theorem Vec3.normSq_eq_zero_iff (a : Vec3) : a.normSq = 0 ↔ a = Vec3.zero := by
  constructor
  · intro h
    have hx := mul_self_nonneg a.x
    have hy := mul_self_nonneg a.y
    have hz := mul_self_nonneg a.z
    unfold Vec3.normSq at h
    ext <;> simp only [Vec3.zero] <;> nlinarith
  · intro h
    subst h
    simp [Vec3.normSq, Vec3.zero]

theorem Vec3.length_eq_zero_iff (a : Vec3) : a.length = 0 ↔ a = Vec3.zero := by
  rw [Vec3.length, Real.sqrt_eq_zero a.normSq_nonneg, Vec3.normSq_eq_zero_iff]

theorem Vec3.length_pos_of_ne (a : Vec3) (h : a ≠ Vec3.zero) : 0 < a.length := by
  rcases lt_or_eq_of_le a.length_nonneg with h1 | h1
  · exact h1
  · exact absurd (a.length_eq_zero_iff.mp h1.symm) h

theorem Vec3.normSq_normalize (a : Vec3) (h : a ≠ Vec3.zero) :
    a.normalize.normSq = 1 := by
  have hl := a.length_pos_of_ne h
  have hsq := a.length_sq
  unfold Vec3.normalize Vec3.normSq
  unfold Vec3.normSq at hsq
  field_simp
  linarith

theorem Vec3.normalize_of_unit (a : Vec3) (h : a.normSq = 1) :
    a.normalize = a := by
  have hl : a.length = 1 := by rw [Vec3.length, h, Real.sqrt_one]
  unfold Vec3.normalize
  rw [hl]
  ext <;> simp

theorem Vec3.normalize_zero : Vec3.zero.normalize = Vec3.zero := by
  unfold Vec3.normalize
  ext <;> simp [Vec3.zero]

theorem Vec3.normalize_normalize (a : Vec3) :
    a.normalize.normalize = a.normalize := by
  by_cases h : a = Vec3.zero
  · subst h; rw [Vec3.normalize_zero, Vec3.normalize_zero]
  · exact Vec3.normalize_of_unit _ (a.normSq_normalize h)

theorem Quat.mul_one_right (q : Quat) : q.mul Quat.one = q := by
  unfold Quat.mul Quat.one
  ext <;> simp

theorem Quat.rotate_one (v : Vec3) : Quat.one.rotate v = v := by
  unfold Quat.rotate Quat.mul Quat.conj Quat.one
  ext <;> simp

theorem quatMat_mulVec (q : Quat) (v : Vec3) :
    (quatMat q).mulVec v = q.rotate v := by
  unfold quatMat Mat3.mulVec Quat.rotate Quat.mul Quat.conj
  ext <;> ring

theorem Mat3.mulVec_mul3 (A B : Mat3) (v : Vec3) :
    (A.mul3 B).mulVec v = A.mulVec (B.mulVec v) := by
  unfold Mat3.mul3 Mat3.mulVec
  ext <;> ring

theorem Mat3.det3_mul3 (A B : Mat3) :
    (A.mul3 B).det3 = A.det3 * B.det3 := by
  unfold Mat3.mul3 Mat3.det3
  ring

theorem Mat3.mul3_id3 (A : Mat3) : A.mul3 Mat3.id3 = A := by
  unfold Mat3.mul3 Mat3.id3
  ext <;> ring

theorem Mat3.id3_mul3 (A : Mat3) : Mat3.id3.mul3 A = A := by
  unfold Mat3.mul3 Mat3.id3
  ext <;> ring

theorem Mat3.mul3_assoc (A B C : Mat3) :
    (A.mul3 B).mul3 C = A.mul3 (B.mul3 C) := by
  unfold Mat3.mul3
  ext <;> ring

theorem Mat3.inv3_mul3_self (A : Mat3) (h : A.det3 ≠ 0) :
    A.inv3.mul3 A = Mat3.id3 := by
  unfold Mat3.inv3 Mat3.mul3 Mat3.id3
  unfold Mat3.det3 at h ⊢
  ext <;> field_simp <;> ring

theorem Mat3.mul3_inv3_self (A : Mat3) (h : A.det3 ≠ 0) :
    A.mul3 A.inv3 = Mat3.id3 := by
  unfold Mat3.inv3 Mat3.mul3 Mat3.id3
  unfold Mat3.det3 at h ⊢
  ext <;> field_simp <;> ring

theorem Mat3.inv_unique (A B C : Mat3) (hB : B.mul3 A = Mat3.id3)
    (hC : A.mul3 C = Mat3.id3) : B = C := by
  have h1 : B.mul3 (A.mul3 C) = B := by rw [hC, Mat3.mul3_id3]
  have h2 : (B.mul3 A).mul3 C = C := by rw [hB, Mat3.id3_mul3]
  rw [Mat3.mul3_assoc] at h2
  rw [h1] at h2
  exact h2

theorem Mat3.transpose3_mul3 (A B : Mat3) :
    (A.mul3 B).transpose3 = B.transpose3.mul3 A.transpose3 := by
  unfold Mat3.mul3 Mat3.transpose3
  ext <;> ring

theorem Mat3.transpose3_transpose3 (A : Mat3) :
    A.transpose3.transpose3 = A := by
  unfold Mat3.transpose3
  ext <;> rfl

theorem quatMat_orthogonal (q : Quat) (h : q.normSq = 1) :
    (quatMat q).transpose3.mul3 (quatMat q) = Mat3.id3 := by
  unfold Quat.normSq at h
  unfold quatMat Mat3.transpose3 Mat3.mul3 Mat3.id3
  ext <;> dsimp only
  · linear_combination (q.w * q.w + q.x * q.x + q.y * q.y + q.z * q.z + 1) * h
  · ring
  · ring
  · ring
  · linear_combination (q.w * q.w + q.x * q.x + q.y * q.y + q.z * q.z + 1) * h
  · ring
  · ring
  · ring
  · linear_combination (q.w * q.w + q.x * q.x + q.y * q.y + q.z * q.z + 1) * h

set_option maxHeartbeats 1000000 in
theorem Mat4.mul4_inv4m (M : Mat4) (h : M.det4 ≠ 0) :
    M.mul4 M.inv4m = Mat4.id4 := by
  have h1 := mul_inv_cancel₀ h
  unfold Mat4.inv4m Mat4.mul4 Mat4.id4
  unfold Mat4.det4 det3x3 at h1 ⊢
  ext <;> dsimp only <;> first | ring1 | linear_combination h1

set_option maxHeartbeats 1000000 in
theorem Mat4.inv4m_mul4 (M : Mat4) (h : M.det4 ≠ 0) :
    M.inv4m.mul4 M = Mat4.id4 := by
  have h1 := mul_inv_cancel₀ h
  unfold Mat4.inv4m Mat4.mul4 Mat4.id4
  unfold Mat4.det4 det3x3 at h1 ⊢
  ext <;> dsimp only <;> first | ring1 | linear_combination h1

theorem Mat4.det4_affine (M : Mat4) (h : M.isAffine) :
    M.det4 = M.to3x3.det3 := by
  obtain ⟨h30, h31, h32, h33⟩ := h
  unfold Mat4.det4 Mat4.to3x3 Mat3.det3 det3x3
  rw [h30, h31, h32, h33]
  ring

theorem normalMat_affine (M : Mat4) (h : M.isAffine) :
    M.inv4m.transposed4.to3x3 = M.to3x3.inv3.transpose3 := by
  obtain ⟨h30, h31, h32, h33⟩ := h
  unfold Mat4.inv4m Mat4.transposed4 Mat4.to3x3 Mat3.inv3 Mat3.transpose3
    Mat3.det3 Mat4.det4 det3x3
  rw [h30, h31, h32, h33]
  ext <;> dsimp only <;> ring

theorem rotatedWorld_to3x3 (q : Quat) (M : Mat4) :
    (rotatedWorld q M).to3x3 = (quatMat q).mul3 M.to3x3 := by
  unfold rotatedWorld Mat4.to3x3
  ext <;> rfl

theorem rotatedWorld_isAffine (q : Quat) (M : Mat4) (h : M.isAffine) :
    (rotatedWorld q M).isAffine := by
  obtain ⟨h30, h31, h32, h33⟩ := h
  exact ⟨h30, h31, h32, h33⟩

theorem computeRotation_ok (obj : BlenderObject)
    (hlen : (selectedNormalSum obj.vertices).length ≠ 0)
    (hdet : obj.matrix_world.det4 ≠ 0) :
    computeRotation obj =
      Except.ok (rotation_difference (worldNormalOf obj) upVec) := by
  unfold computeRotation Mat4.inverted4 worldNormalOf
  rw [if_neg hlen, if_neg hdet]

theorem quatMat_det3 (q : Quat) (h : q.normSq = 1) :
    (quatMat q).det3 = 1 := by
  unfold Quat.normSq at h
  unfold quatMat Mat3.det3
  dsimp only
  linear_combination ((q.w * q.w + q.x * q.x + q.y * q.y + q.z * q.z) ^ 2
    + (q.w * q.w + q.x * q.x + q.y * q.y + q.z * q.z) + 1) * h

theorem FLT_EPSILON_pos : 0 < FLT_EPSILON := by norm_num [FLT_EPSILON]

theorem upVec_normSq : upVec.normSq = 1 := by norm_num [upVec, Vec3.normSq]

theorem normalize_upVec : upVec.normalize = upVec :=
  Vec3.normalize_of_unit upVec upVec_normSq

theorem Vec3.cross_upVec (w : Vec3) : w.cross upVec = ⟨w.y, -w.x, 0⟩ := by
  unfold Vec3.cross upVec
  ext <;> dsimp only <;> ring

theorem Vec3.dot_upVec (w : Vec3) : w.dot upVec = w.z := by
  unfold Vec3.dot upVec
  dsimp only
  ring

theorem rotate_half_up (x y z A t : ℝ) (hw : x * x + y * y + z * z = 1)
    (hA2 : A * A = (1 + z) / 2) (h2 : 2 * A * t = 1) :
    Quat.rotate ⟨A, y * t, -(x * t), 0⟩ ⟨x, y, z⟩ = upVec := by
  unfold Quat.rotate Quat.mul Quat.conj upVec
  ext <;> dsimp only
  · linear_combination (x * (1 + 2 * (1 - z) * t * t)) * hA2
      + (x * (-z - (1 - z) * (2 * A * t + 1) / 2)) * h2 + (-(x * t * t)) * hw
  · linear_combination (y * (1 + 2 * (1 - z) * t * t)) * hA2
      + (y * (-z - (1 - z) * (2 * A * t + 1) / 2)) * h2 + (-(y * t * t)) * hw
  · linear_combination (z + 2 * z * (1 - z) * t * t) * hA2
      + ((x * x + y * y) - z * (1 - z) * (2 * A * t + 1) / 2) * h2
      + (1 - z * t * t) * hw

theorem normSq_half (x y z A t : ℝ) (hw : x * x + y * y + z * z = 1)
    (hA2 : A * A = (1 + z) / 2) (h2 : 2 * A * t = 1) :
    Quat.normSq ⟨A, y * t, -(x * t), 0⟩ = 1 := by
  unfold Quat.normSq
  dsimp only
  linear_combination (1 - 2 * (1 - z) * t * t) * hA2
    + ((1 - z) * (2 * A * t + 1) / 2) * h2 + (t * t) * hw

theorem rd_generic_eq (w : Vec3) (hw : w.normSq = 1)
    (hb : FLT_EPSILON < (w.cross upVec).length) :
    rotation_difference w upVec =
      ⟨Real.sqrt ((1 + w.z) / 2),
       w.y * (1 / (2 * Real.sqrt ((1 + w.z) / 2))),
       -(w.x * (1 / (2 * Real.sqrt ((1 + w.z) / 2)))),
       0⟩ := by
  have hnw : w.normalize = w := Vec3.normalize_of_unit w hw
  have hS2 : (w.cross upVec).length * (w.cross upVec).length
      = w.x * w.x + w.y * w.y := by
    rw [Vec3.length_sq, Vec3.cross_upVec]
    unfold Vec3.normSq
    dsimp only
    ring
  have hSpos : 0 < (w.cross upVec).length := lt_trans FLT_EPSILON_pos hb
  have hz2 : w.z * w.z < 1 := by
    have h1 : 0 < w.x * w.x + w.y * w.y := by
      rw [← hS2]; exact mul_pos hSpos hSpos
    unfold Vec3.normSq at hw
    nlinarith
  have hz3 : (0:ℝ) < (1 + w.z) / 2 := by nlinarith
  have hA2 : Real.sqrt ((1 + w.z) / 2) * Real.sqrt ((1 + w.z) / 2)
      = (1 + w.z) / 2 := Real.mul_self_sqrt (le_of_lt hz3)
  have hApos : 0 < Real.sqrt ((1 + w.z) / 2) := Real.sqrt_pos.mpr hz3
  have hSne : (w.cross upVec).length ≠ 0 := ne_of_gt hSpos
  have hAne : Real.sqrt ((1 + w.z) / 2) ≠ 0 := ne_of_gt hApos
  have hBeq : Real.sqrt ((1 - w.z) / 2)
      = (w.cross upVec).length / (2 * Real.sqrt ((1 + w.z) / 2)) := by
    have hq : (1 - w.z) / 2
        = ((w.cross upVec).length / (2 * Real.sqrt ((1 + w.z) / 2))) ^ 2 := by
      rw [div_pow]
      rw [show ((w.cross upVec).length) ^ 2 = w.x * w.x + w.y * w.y by
        rw [sq]; exact hS2]
      rw [show (2 * Real.sqrt ((1 + w.z) / 2)) ^ 2 = 2 * (1 + w.z) by
        rw [mul_pow, Real.sq_sqrt (le_of_lt hz3)]; ring]
      unfold Vec3.normSq at hw
      rw [eq_div_iff (ne_of_gt (by nlinarith : (0:ℝ) < 2 * (1 + w.z)))]
      nlinarith
    rw [hq, Real.sqrt_sq (by positivity)]
  have hcx : (w.cross upVec).x = w.y := by rw [Vec3.cross_upVec]
  have hcy : (w.cross upVec).y = -w.x := by rw [Vec3.cross_upVec]
  have hcz : (w.cross upVec).z = 0 := by rw [Vec3.cross_upVec]
  simp only [rotation_difference, hnw, normalize_upVec]
  rw [Vec3.dot_upVec, if_pos hb, hBeq]
  have key : ∀ c : ℝ, (w.cross upVec).length / (2 * Real.sqrt ((1 + w.z) / 2))
      * (c / (w.cross upVec).length) = c * (1 / (2 * Real.sqrt ((1 + w.z) / 2))) := by
    intro c
    have harr : (w.cross upVec).length / (2 * Real.sqrt ((1 + w.z) / 2))
        * (c / (w.cross upVec).length)
        = c * (1 / (2 * Real.sqrt ((1 + w.z) / 2)))
          * ((w.cross upVec).length / (w.cross upVec).length) := by ring
    rw [harr, div_self hSne, mul_one]
  ext <;> dsimp only
  · rw [hcx, key]
  · rw [hcy, key]; ring
  · rw [hcz]; simp

theorem unit_generic_z_bound (w : Vec3) (hw : w.normSq = 1)
    (hb : FLT_EPSILON < (w.cross upVec).length) : w.z * w.z < 1 := by
  have hS2 : (w.cross upVec).length * (w.cross upVec).length
      = w.x * w.x + w.y * w.y := by
    rw [Vec3.length_sq, Vec3.cross_upVec]
    unfold Vec3.normSq
    dsimp only
    ring
  have hSpos : 0 < (w.cross upVec).length := lt_trans FLT_EPSILON_pos hb
  have h1 : 0 < w.x * w.x + w.y * w.y := by
    rw [← hS2]; exact mul_pos hSpos hSpos
  unfold Vec3.normSq at hw
  nlinarith

theorem rd_generic_rotate (w : Vec3) (hw : w.normSq = 1)
    (hb : FLT_EPSILON < (w.cross upVec).length) :
    (rotation_difference w upVec).rotate w = upVec := by
  rw [rd_generic_eq w hw hb]
  have hz2 := unit_generic_z_bound w hw hb
  have hz3 : (0:ℝ) < (1 + w.z) / 2 := by nlinarith
  have hA2 : Real.sqrt ((1 + w.z) / 2) * Real.sqrt ((1 + w.z) / 2)
      = (1 + w.z) / 2 := Real.mul_self_sqrt (le_of_lt hz3)
  have hApos : 0 < Real.sqrt ((1 + w.z) / 2) := Real.sqrt_pos.mpr hz3
  have h2 : 2 * Real.sqrt ((1 + w.z) / 2)
      * (1 / (2 * Real.sqrt ((1 + w.z) / 2))) = 1 :=
    mul_one_div_cancel (ne_of_gt (by nlinarith))
  have hwx : w.x * w.x + w.y * w.y + w.z * w.z = 1 := hw
  exact rotate_half_up w.x w.y w.z (Real.sqrt ((1 + w.z) / 2))
    (1 / (2 * Real.sqrt ((1 + w.z) / 2))) hwx hA2 h2

theorem rd_generic_normSq (w : Vec3) (hw : w.normSq = 1)
    (hb : FLT_EPSILON < (w.cross upVec).length) :
    (rotation_difference w upVec).normSq = 1 := by
  rw [rd_generic_eq w hw hb]
  have hz2 := unit_generic_z_bound w hw hb
  have hz3 : (0:ℝ) < (1 + w.z) / 2 := by nlinarith
  have hA2 : Real.sqrt ((1 + w.z) / 2) * Real.sqrt ((1 + w.z) / 2)
      = (1 + w.z) / 2 := Real.mul_self_sqrt (le_of_lt hz3)
  have hApos : 0 < Real.sqrt ((1 + w.z) / 2) := Real.sqrt_pos.mpr hz3
  have h2 : 2 * Real.sqrt ((1 + w.z) / 2)
      * (1 / (2 * Real.sqrt ((1 + w.z) / 2))) = 1 :=
    mul_one_div_cancel (ne_of_gt (by nlinarith))
  have hwx : w.x * w.x + w.y * w.y + w.z * w.z = 1 := hw
  exact normSq_half w.x w.y w.z (Real.sqrt ((1 + w.z) / 2))
    (1 / (2 * Real.sqrt ((1 + w.z) / 2))) hwx hA2 h2

theorem rd_deg_pos (w : Vec3) (hw : w.normSq = 1)
    (hb : ¬ FLT_EPSILON < (w.cross upVec).length) (hd : 0 < w.z) :
    rotation_difference w upVec = Quat.one := by
  have hnw : w.normalize = w := Vec3.normalize_of_unit w hw
  simp only [rotation_difference, hnw, normalize_upVec]
  rw [Vec3.dot_upVec, if_neg hb, if_pos hd]

theorem rd_deg_neg_eq (w : Vec3) (hw : w.normSq = 1)
    (hb : ¬ FLT_EPSILON < (w.cross upVec).length) (hd : ¬ 0 < w.z) :
    rotation_difference w upVec =
      ⟨0, (ortho_v3 w).normalize.x, (ortho_v3 w).normalize.y,
       (ortho_v3 w).normalize.z⟩ := by
  have hnw : w.normalize = w := Vec3.normalize_of_unit w hw
  simp only [rotation_difference, hnw, normalize_upVec]
  rw [Vec3.dot_upVec, if_neg hb, if_neg hd]

theorem ortho_v3_dot (v : Vec3) : (ortho_v3 v).dot v = 0 := by
  unfold ortho_v3 Vec3.dot
  split_ifs <;> dsimp only <;> ring

theorem ortho_v3_ne_zero (v : Vec3) (hv : v ≠ Vec3.zero) :
    ortho_v3 v ≠ Vec3.zero := by
  unfold ortho_v3
  split_ifs with h1 h2 h3
  · intro h
    simp only [Vec3.zero, Vec3.mk.injEq] at h
    rw [h.2.1, abs_zero] at h1
    exact absurd h1 (not_lt.mpr (abs_nonneg _))
  · intro h
    simp only [Vec3.zero, Vec3.mk.injEq] at h
    have hx : v.x = 0 := by
      have := not_lt.mp h2
      rw [h.1, abs_zero] at this
      exact abs_eq_zero.mp (le_antisymm this (abs_nonneg _))
    rw [hx, abs_zero] at h1
    exact absurd h1 (not_lt.mpr (abs_nonneg _))
  · intro h
    simp only [Vec3.zero, Vec3.mk.injEq] at h
    rw [h.1, abs_zero] at h3
    exact absurd h3 (not_lt.mpr (abs_nonneg _))
  · intro h
    simp only [Vec3.zero, Vec3.mk.injEq] at h
    have hz : v.z = 0 := h.1
    have hy : v.y = 0 := by
      have := not_lt.mp h3
      rw [hz, abs_zero] at this
      exact abs_eq_zero.mp (le_antisymm this (abs_nonneg _))
    have hx : v.x = 0 := by
      have := not_lt.mp h1
      rw [hy, abs_zero] at this
      exact abs_eq_zero.mp (le_antisymm this (abs_nonneg _))
    exact hv (by ext <;> simp [Vec3.zero, hx, hy, hz])

theorem rotate_pi_axis (n w : Vec3) (hn : n.normSq = 1) (hd : n.dot w = 0) :
    Quat.rotate ⟨0, n.x, n.y, n.z⟩ w = w.neg := by
  unfold Quat.rotate Quat.mul Quat.conj Vec3.neg
  unfold Vec3.normSq at hn
  unfold Vec3.dot at hd
  ext <;> dsimp only
  · linear_combination (-w.x) * hn + (2 * n.x) * hd
  · linear_combination (-w.y) * hn + (2 * n.y) * hd
  · linear_combination (-w.z) * hn + (2 * n.z) * hd

theorem Vec3.normalize_dot (u w : Vec3) :
    u.normalize.dot w = u.dot w / u.length := by
  unfold Vec3.normalize Vec3.dot
  dsimp only
  ring

theorem Vec3.normSq_neg (v : Vec3) : v.neg.normSq = v.normSq := by
  unfold Vec3.neg Vec3.normSq
  dsimp only
  ring

theorem Vec3.length_neg (v : Vec3) : v.neg.length = v.length := by
  unfold Vec3.length
  rw [Vec3.normSq_neg]

theorem Vec3.cross_upVec_neg (w : Vec3) :
    w.neg.cross upVec = (w.cross upVec).neg := by
  unfold Vec3.neg Vec3.cross upVec
  ext <;> dsimp only <;> ring

theorem cross_up_len_sq (w : Vec3) :
    (w.cross upVec).length * (w.cross upVec).length = w.x * w.x + w.y * w.y := by
  rw [Vec3.length_sq, Vec3.cross_upVec]
  unfold Vec3.normSq
  dsimp only
  ring

theorem unit_deg_z_sq (w : Vec3) (hw : w.normSq = 1)
    (hb : ¬ FLT_EPSILON < (w.cross upVec).length) :
    1 - FLT_EPSILON ^ 2 ≤ w.z * w.z := by
  have hle : (w.cross upVec).length ≤ FLT_EPSILON := le_of_not_lt hb
  have h0 : 0 ≤ (w.cross upVec).length := Vec3.length_nonneg _
  have hsq : (w.cross upVec).length * (w.cross upVec).length ≤ FLT_EPSILON ^ 2 := by
    rw [sq]
    exact mul_le_mul hle hle h0 (le_of_lt FLT_EPSILON_pos)
  rw [cross_up_len_sq] at hsq
  unfold Vec3.normSq at hw
  nlinarith

theorem unit_ne_zero (w : Vec3) (hw : w.normSq = 1) : w ≠ Vec3.zero := by
  intro h
  rw [h] at hw
  unfold Vec3.normSq Vec3.zero at hw
  norm_num at hw

theorem rd_rotate_deg_neg (w : Vec3) (hw : w.normSq = 1)
    (hb : ¬ FLT_EPSILON < (w.cross upVec).length) (hd : ¬ 0 < w.z) :
    (rotation_difference w upVec).rotate w = w.neg := by
  rw [rd_deg_neg_eq w hw hb hd]
  apply rotate_pi_axis
  · exact Vec3.normSq_normalize _ (ortho_v3_ne_zero w (unit_ne_zero w hw))
  · rw [Vec3.normalize_dot, ortho_v3_dot, zero_div]

theorem rd_normSq_unit (w : Vec3) (hw : w.normSq = 1) :
    (rotation_difference w upVec).normSq = 1 := by
  by_cases hb : FLT_EPSILON < (w.cross upVec).length
  · exact rd_generic_normSq w hw hb
  · by_cases hd : 0 < w.z
    · rw [rd_deg_pos w hw hb hd]
      norm_num [Quat.one, Quat.normSq]
    · rw [rd_deg_neg_eq w hw hb hd]
      have h1 := Vec3.normSq_normalize _ (ortho_v3_ne_zero w (unit_ne_zero w hw))
      unfold Quat.normSq
      unfold Vec3.normSq at h1
      dsimp only
      linarith

theorem rd_align_unit (w : Vec3) (hw : w.normSq = 1) :
    1 - 1 / 100000 ≤ ((rotation_difference w upVec).rotate w).dot upVec := by
  by_cases hb : FLT_EPSILON < (w.cross upVec).length
  · rw [rd_generic_rotate w hw hb]
    norm_num [Vec3.dot, upVec]
  · have hz2 := unit_deg_z_sq w hw hb
    norm_num [FLT_EPSILON] at hz2
    by_cases hd : 0 < w.z
    · rw [rd_deg_pos w hw hb hd, Quat.rotate_one, Vec3.dot_upVec]
      nlinarith
    · rw [rd_rotate_deg_neg w hw hb hd, Vec3.dot_upVec]
      have hzle : w.z ≤ 0 := le_of_not_lt hd
      show (1:ℝ) - 1 / 100000 ≤ -w.z
      nlinarith

theorem rd_up_up : rotation_difference upVec upVec = Quat.one := by
  have hc : (upVec.cross upVec).length = 0 := by
    rw [Vec3.length_eq_zero_iff, Vec3.cross_upVec]
    ext <;> simp [upVec, Vec3.zero]
  simp only [rotation_difference, normalize_upVec]
  rw [hc, Vec3.dot_upVec, if_neg (by norm_num [FLT_EPSILON]),
    if_pos (by norm_num [upVec] : (0:ℝ) < upVec.z)]

theorem rd_second_run_unit (w : Vec3) (hw : w.normSq = 1) :
    rotation_difference ((rotation_difference w upVec).rotate w) upVec
      = Quat.one := by
  by_cases hb : FLT_EPSILON < (w.cross upVec).length
  · rw [rd_generic_rotate w hw hb, rd_up_up]
  · by_cases hd : 0 < w.z
    · rw [rd_deg_pos w hw hb hd, Quat.rotate_one, rd_deg_pos w hw hb hd]
    · rw [rd_rotate_deg_neg w hw hb hd]
      have hw2 : w.neg.normSq = 1 := by rw [Vec3.normSq_neg]; exact hw
      apply rd_deg_pos w.neg hw2
      · rw [Vec3.cross_upVec_neg, Vec3.length_neg]
        exact hb
      · have hz2 := unit_deg_z_sq w hw hb
        norm_num [FLT_EPSILON] at hz2
        have hzle : w.z ≤ 0 := le_of_not_lt hd
        show 0 < -w.z
        nlinarith

theorem rd_normalize_left (v : Vec3) :
    rotation_difference v.normalize upVec = rotation_difference v upVec := by
  unfold rotation_difference
  rw [Vec3.normalize_normalize]

theorem Vec3.length_smul_pos (c : ℝ) (v : Vec3) (hc : 0 < c) :
    (Vec3.smul c v).length = c * v.length := by
  unfold Vec3.length Vec3.smul Vec3.normSq
  dsimp only
  rw [show c * v.x * (c * v.x) + c * v.y * (c * v.y) + c * v.z * (c * v.z)
      = c ^ 2 * (v.x * v.x + v.y * v.y + v.z * v.z) from by ring]
  rw [Real.sqrt_mul (sq_nonneg c), Real.sqrt_sq (le_of_lt hc)]

theorem Vec3.normalize_smul_pos (c : ℝ) (v : Vec3) (hc : 0 < c) :
    (Vec3.smul c v).normalize = v.normalize := by
  unfold Vec3.normalize
  rw [Vec3.length_smul_pos c v hc]
  unfold Vec3.smul
  ext <;> dsimp only <;> rw [mul_div_mul_left _ _ (ne_of_gt hc)]

theorem rd_smul_pos (c : ℝ) (v : Vec3) (hc : 0 < c) :
    rotation_difference (Vec3.smul c v) upVec = rotation_difference v upVec := by
  unfold rotation_difference
  rw [Vec3.normalize_smul_pos c v hc]

theorem Vec3.smul_length_normalize (v : Vec3) (hv : v ≠ Vec3.zero) :
    Vec3.smul v.length v.normalize = v := by
  have hl := v.length_pos_of_ne hv
  unfold Vec3.smul Vec3.normalize
  ext <;> dsimp only <;> rw [mul_div_cancel₀ _ (ne_of_gt hl)]

theorem Quat.rotate_smul (q : Quat) (c : ℝ) (v : Vec3) :
    q.rotate (Vec3.smul c v) = Vec3.smul c (q.rotate v) := by
  unfold Quat.rotate Quat.mul Quat.conj Vec3.smul
  ext <;> dsimp only <;> ring

theorem rd_align (w : Vec3) (hw : w ≠ Vec3.zero) :
    1 - 1 / 100000 ≤
      ((rotation_difference w upVec).rotate w.normalize).dot upVec := by
  rw [← rd_normalize_left w]
  exact rd_align_unit w.normalize (w.normSq_normalize hw)

theorem rd_normSq_any (w : Vec3) (hw : w ≠ Vec3.zero) :
    (rotation_difference w upVec).normSq = 1 := by
  rw [← rd_normalize_left w]
  exact rd_normSq_unit w.normalize (w.normSq_normalize hw)

theorem rd_second_run_any (w : Vec3) (hw : w ≠ Vec3.zero) :
    rotation_difference ((rotation_difference w upVec).rotate w) upVec
      = Quat.one := by
  have hl := w.length_pos_of_ne hw
  have h1 : (rotation_difference w upVec).rotate w
      = Vec3.smul w.length ((rotation_difference w upVec).rotate w.normalize) := by
    rw [← Quat.rotate_smul, Vec3.smul_length_normalize w hw]
  rw [h1, rd_smul_pos _ _ hl, ← rd_normalize_left w]
  exact rd_second_run_unit w.normalize (w.normSq_normalize hw)

theorem Mat3.transpose3_id3 : Mat3.id3.transpose3 = Mat3.id3 := by
  unfold Mat3.transpose3 Mat3.id3
  ext <;> rfl

theorem Mat3.mulVec_id3 (v : Vec3) : Mat3.id3.mulVec v = v := by
  unfold Mat3.mulVec Mat3.id3
  ext <;> dsimp only <;> ring

theorem Mat3.mulVec_zero (M : Mat3) : M.mulVec Vec3.zero = Vec3.zero := by
  unfold Mat3.mulVec Vec3.zero
  ext <;> dsimp only <;> ring

theorem Vec3.divs_length (v : Vec3) : v.divs v.length = v.normalize := rfl

theorem invTranspose_mulVec_ne_zero (A : Mat3) (v : Vec3) (hA : A.det3 ≠ 0)
    (hv : v ≠ Vec3.zero) : A.inv3.transpose3.mulVec v ≠ Vec3.zero := by
  intro h
  have h1 : A.transpose3.mulVec (A.inv3.transpose3.mulVec v) = v := by
    rw [← Mat3.mulVec_mul3, ← Mat3.transpose3_mul3, Mat3.inv3_mul3_self A hA,
      Mat3.transpose3_id3, Mat3.mulVec_id3]
  rw [h, Mat3.mulVec_zero] at h1
  exact hv h1.symm

theorem selectedNormalSum_nil_selected (vs : List MeshVertex)
    (h : ∀ v ∈ vs, v.select = false) :
    selectedNormalSum vs = Vec3.zero := by
  unfold selectedNormalSum
  have key : ∀ acc : Vec3,
      vs.foldl (fun acc v => if v.select then acc.add v.normal else acc) acc
        = acc := by
    induction vs with
    | nil => intro acc; rfl
    | cons a tl ih =>
        intro acc
        have ha : a.select = false := h a (List.mem_cons_self a tl)
        simp only [List.foldl_cons, ha, if_false]
        exact ih (fun v hv => h v (List.mem_cons_of_mem a hv)) acc
  exact key Vec3.zero

theorem invTranspose_rot (R A : Mat3) (hR : R.transpose3.mul3 R = Mat3.id3)
    (hRdet : R.det3 ≠ 0) (hA : A.det3 ≠ 0) :
    (R.mul3 A).inv3.transpose3 = R.mul3 A.inv3.transpose3 := by
  have hdet : (R.mul3 A).det3 ≠ 0 := by
    rw [Mat3.det3_mul3]; exact mul_ne_zero hRdet hA
  have h1 : (A.inv3.mul3 R.transpose3).mul3 (R.mul3 A) = Mat3.id3 := by
    rw [Mat3.mul3_assoc, ← Mat3.mul3_assoc R.transpose3 R A, hR,
      Mat3.id3_mul3]
    exact Mat3.inv3_mul3_self A hA
  have h2 : (R.mul3 A).mul3 (R.mul3 A).inv3 = Mat3.id3 :=
    Mat3.mul3_inv3_self _ hdet
  have h3 : A.inv3.mul3 R.transpose3 = (R.mul3 A).inv3 :=
    Mat3.inv_unique _ _ _ h1 h2
  rw [← h3, Mat3.transpose3_mul3, Mat3.transpose3_transpose3]

theorem Vec3.zero_add (v : Vec3) : Vec3.zero.add v = v := by
  unfold Vec3.zero Vec3.add
  ext <;> dsimp only <;> ring

theorem selectedNormalSum_single (p n : Vec3) :
    selectedNormalSum [⟨p, n, true⟩] = n := by
  unfold selectedNormalSum
  simp only [List.foldl_cons, List.foldl_nil, if_true]
  exact Vec3.zero_add n

theorem worldNormal_eq_affine (obj : BlenderObject)
    (haff : obj.matrix_world.isAffine) :
    worldNormalOf obj = obj.matrix_world.to3x3.inv3.transpose3.mulVec
      (selectedNormalSum obj.vertices).normalize := by
  simp only [worldNormalOf]
  rw [normalMat_affine _ haff, Vec3.divs_length]

theorem normalize_ne_zero (v : Vec3) (hv : v ≠ Vec3.zero) :
    v.normalize ≠ Vec3.zero := by
  intro h
  have h2 := v.normSq_normalize hv
  rw [h] at h2
  unfold Vec3.normSq Vec3.zero at h2
  norm_num at h2

theorem worldNormal_ne_zero (obj : BlenderObject)
    (hsum : selectedNormalSum obj.vertices ≠ Vec3.zero)
    (haff : obj.matrix_world.isAffine)
    (hdet : obj.matrix_world.to3x3.det3 ≠ 0) :
    worldNormalOf obj ≠ Vec3.zero := by
  rw [worldNormal_eq_affine obj haff]
  exact invTranspose_mulVec_ne_zero _ _ hdet (normalize_ne_zero _ hsum)

/-- Claim C1 (amended): for every mesh with a non-empty selection whose
local normals do not exactly cancel, and every invertible affine world
transform, the quaternion computed by the orientation solver, applied to
the normalized world-space averaged normal, maps it onto (0,0,1) with
dot product at least 1 - 1e-5.  (The claim as stated over every world
transform fails: a singular matrix makes Matrix.inverted() raise
ValueError, see the counterexample.) -/
theorem orient_rotation_aligns (obj : BlenderObject)
    (hsel : ∃ v ∈ obj.vertices, v.select = true)
    (hsum : selectedNormalSum obj.vertices ≠ Vec3.zero)
    (haff : obj.matrix_world.isAffine)
    (hdet : obj.matrix_world.to3x3.det3 ≠ 0) :
    ∃ rot : Quat, computeRotation obj = Except.ok rot ∧
      1 - 1 / 100000 ≤ (rot.rotate (worldNormalOf obj).normalize).dot upVec := by
  have hlen : (selectedNormalSum obj.vertices).length ≠ 0 := by
    rw [Ne, Vec3.length_eq_zero_iff]; exact hsum
  have hdet4 : obj.matrix_world.det4 ≠ 0 := by
    rw [Mat4.det4_affine _ haff]; exact hdet
  exact ⟨_, computeRotation_ok obj hlen hdet4,
    rd_align _ (worldNormal_ne_zero obj hsum haff hdet)⟩

/-- Claim C7: for every mesh and selection on which the solver succeeds
(affine invertible world matrix, nonzero normal sum), applying the
computed rotation to the object (pre-multiplying its world linear part
by the rotation matrix) and re-running the solver on the updated
configuration yields exactly the identity quaternion. -/
theorem orient_rerun_identity (obj : BlenderObject) (rot : Quat)
    (hsum : selectedNormalSum obj.vertices ≠ Vec3.zero)
    (haff : obj.matrix_world.isAffine)
    (hdet : obj.matrix_world.to3x3.det3 ≠ 0)
    (hrot : computeRotation obj = Except.ok rot) :
    computeRotation { obj with
        matrix_world := rotatedWorld rot obj.matrix_world,
        rotation_mode := RotMode.QUATERNION,
        rotation_quaternion := rot.mul obj.rotation_quaternion }
      = Except.ok Quat.one := by
  have hlen : (selectedNormalSum obj.vertices).length ≠ 0 := by
    rw [Ne, Vec3.length_eq_zero_iff]; exact hsum
  have hdet4 : obj.matrix_world.det4 ≠ 0 := by
    rw [Mat4.det4_affine _ haff]; exact hdet
  have hco := computeRotation_ok obj hlen hdet4
  rw [hrot] at hco
  have hrot_eq : rot = rotation_difference (worldNormalOf obj) upVec :=
    Except.ok.inj hco
  have hwn_ne := worldNormal_ne_zero obj hsum haff hdet
  have hR1 : rot.normSq = 1 := by
    rw [hrot_eq]; exact rd_normSq_any _ hwn_ne
  have hRortho := quatMat_orthogonal rot hR1
  have hRdet : (quatMat rot).det3 ≠ 0 := by
    rw [quatMat_det3 rot hR1]; norm_num
  have haff2 := rotatedWorld_isAffine rot obj.matrix_world haff
  have hdet2 : (rotatedWorld rot obj.matrix_world).to3x3.det3 ≠ 0 := by
    rw [rotatedWorld_to3x3, Mat3.det3_mul3]
    exact mul_ne_zero hRdet hdet
  have hdet42 : (rotatedWorld rot obj.matrix_world).det4 ≠ 0 := by
    rw [Mat4.det4_affine _ haff2]; exact hdet2
  rw [computeRotation_ok { obj with
        matrix_world := rotatedWorld rot obj.matrix_world,
        rotation_mode := RotMode.QUATERNION,
        rotation_quaternion := rot.mul obj.rotation_quaternion } hlen hdet42]
  have hwn2 : worldNormalOf { obj with
        matrix_world := rotatedWorld rot obj.matrix_world,
        rotation_mode := RotMode.QUATERNION,
        rotation_quaternion := rot.mul obj.rotation_quaternion }
      = (quatMat rot).mulVec (worldNormalOf obj) := by
    rw [worldNormal_eq_affine { obj with
        matrix_world := rotatedWorld rot obj.matrix_world,
        rotation_mode := RotMode.QUATERNION,
        rotation_quaternion := rot.mul obj.rotation_quaternion } haff2,
      worldNormal_eq_affine obj haff]
    dsimp only
    rw [rotatedWorld_to3x3, invTranspose_rot _ _ hRortho hRdet hdet,
      Mat3.mulVec_mul3]
  have hfinal : rotation_difference (worldNormalOf { obj with
        matrix_world := rotatedWorld rot obj.matrix_world,
        rotation_mode := RotMode.QUATERNION,
        rotation_quaternion := rot.mul obj.rotation_quaternion }) upVec
      = Quat.one := by
    rw [hwn2, quatMat_mulVec, hrot_eq]
    exact rd_second_run_any _ hwn_ne
  rw [hfinal]

theorem execute_eq_ok (obj : BlenderObject) (rot : Quat)
    (hrot : computeRotation obj = Except.ok rot) :
    execute obj = Except.ok ({ obj with
      rotation_mode := RotMode.QUATERNION,
      rotation_quaternion := rot.mul obj.rotation_quaternion },
      OpResult.FINISHED) := by
  unfold execute
  rw [hrot]

theorem execute_eq_error (obj : BlenderObject) (e : PyErr)
    (herr : computeRotation obj = Except.error e) :
    execute obj = Except.error e := by
  unfold execute
  rw [herr]

theorem execute_zero_sum (obj : BlenderObject)
    (hsum : selectedNormalSum obj.vertices = Vec3.zero) :
    execute obj = Except.error PyErr.zeroDivisionError := by
  have h0 : (selectedNormalSum obj.vertices).length = 0 := by
    rw [hsum]
    exact (Vec3.length_eq_zero_iff _).mpr rfl
  apply execute_eq_error
  simp only [computeRotation, h0, if_true]

set_option maxHeartbeats 1000000 in
theorem Mat4.inv4m_id4 : Mat4.id4.inv4m = Mat4.id4 := by
  unfold Mat4.inv4m Mat4.det4 det3x3 Mat4.id4
  ext <;> dsimp only <;> norm_num

theorem Mat4.transposed4_id4 : Mat4.id4.transposed4 = Mat4.id4 := by
  unfold Mat4.transposed4 Mat4.id4
  ext <;> rfl

theorem Mat4.to3x3_id4 : Mat4.id4.to3x3 = Mat3.id3 := by
  unfold Mat4.to3x3 Mat4.id4 Mat3.id3
  ext <;> rfl

theorem upLit_length : (⟨0, 0, 1⟩ : Vec3).length = 1 := by
  unfold Vec3.length Vec3.normSq
  norm_num

theorem Mat4.det4_id4 : Mat4.id4.det4 = 1 := by
  unfold Mat4.det4 det3x3 Mat4.id4
  norm_num

theorem computeRotation_up (p : Vec3) (mode : RotMode) (q : Quat) :
    computeRotation ⟨[⟨p, ⟨0, 0, 1⟩, true⟩], Mat4.id4, mode, q⟩
      = Except.ok Quat.one := by
  have hsum : selectedNormalSum [(⟨p, ⟨0, 0, 1⟩, true⟩ : MeshVertex)]
      = ⟨0, 0, 1⟩ := selectedNormalSum_single p ⟨0, 0, 1⟩
  have hlen : (selectedNormalSum
      [(⟨p, ⟨0, 0, 1⟩, true⟩ : MeshVertex)]).length ≠ 0 := by
    rw [hsum, upLit_length]; norm_num
  have hdet : (Mat4.id4.det4 : ℝ) ≠ 0 := by rw [Mat4.det4_id4]; norm_num
  rw [computeRotation_ok ⟨[⟨p, ⟨0, 0, 1⟩, true⟩], Mat4.id4, mode, q⟩ hlen hdet]
  have hwn : worldNormalOf ⟨[⟨p, ⟨0, 0, 1⟩, true⟩], Mat4.id4, mode, q⟩
      = ⟨0, 0, 1⟩ := by
    simp only [worldNormalOf]
    rw [hsum, upLit_length, Mat4.inv4m_id4, Mat4.transposed4_id4,
      Mat4.to3x3_id4]
    rw [show (⟨0, 0, 1⟩ : Vec3).divs 1 = ⟨0, 0, 1⟩ from by
      unfold Vec3.divs; ext <;> dsimp only <;> norm_num]
    exact Mat3.mulVec_id3 _
  rw [hwn]
  exact congrArg Except.ok rd_up_up

/-- Claim C2 (amended): for every mesh in which no vertex is selected,
regardless of mesh size and of the world transform, the solver fails
with the host ZeroDivisionError raised by the vector division at line
200 (the zero accumulator has zero magnitude); it never returns a
result.  The code defines no EmptySelectionError: the error surfaced is
the generic mathutils division error. -/
theorem empty_selection_raises_zero_division (obj : BlenderObject)
    (h : ∀ v ∈ obj.vertices, v.select = false) :
    execute obj = Except.error PyErr.zeroDivisionError :=
  execute_zero_sum obj (selectedNormalSum_nil_selected obj.vertices h)

/-- Claim C3 (amended): for every non-empty selection whose summed local
normals are exactly the zero vector (e.g. two opposite normals), the
solver fails with the host ZeroDivisionError from the division at line
200.  The code defines no DegenerateNormalError and has no epsilon
threshold: sums of tiny nonzero magnitude are not rejected (see the
counterexample, where magnitude 1e-9 yields a successful rotation). -/
theorem cancelling_normals_raise_zero_division (obj : BlenderObject)
    (hsel : ∃ v ∈ obj.vertices, v.select = true)
    (hsum : selectedNormalSum obj.vertices = Vec3.zero) :
    execute obj = Except.error PyErr.zeroDivisionError :=
  execute_zero_sum obj hsum

/-- Claim C4: on every input the solver processes (nonzero normal sum,
affine invertible world matrix), the rotation is computed from the
normalized accumulator transformed by the transpose of the inverse of
the 3x3 linear part of the world matrix - the code computes
matrix_world.inverted().transposed().to_3x3(), equal to the
inverse-transpose of the linear part for affine matrices - and the
transformed vector is re-normalized to unit length before the rotation
is computed. -/
theorem orient_uses_inverse_transpose (obj : BlenderObject)
    (hsum : selectedNormalSum obj.vertices ≠ Vec3.zero)
    (haff : obj.matrix_world.isAffine)
    (hdet : obj.matrix_world.to3x3.det3 ≠ 0) :
    computeRotation obj = Except.ok (rotation_difference
      (obj.matrix_world.to3x3.inv3.transpose3.mulVec
        (selectedNormalSum obj.vertices).normalize).normalize upVec) := by
  have hlen : (selectedNormalSum obj.vertices).length ≠ 0 := by
    rw [Ne, Vec3.length_eq_zero_iff]; exact hsum
  have hdet4 : obj.matrix_world.det4 ≠ 0 := by
    rw [Mat4.det4_affine _ haff]; exact hdet
  rw [computeRotation_ok obj hlen hdet4, worldNormal_eq_affine obj haff,
    rd_normalize_left]

/-- Claim C5: on every successful run, the resulting rotation quaternion
is the computed quaternion pre-multiplied onto the prior orientation
(new = rot * old, line 211), not a replacement, and the rotation mode is
switched to QUATERNION (line 209). -/
theorem execute_premultiplies_rotation (obj : BlenderObject) (rot : Quat)
    (hrot : computeRotation obj = Except.ok rot) :
    execute obj = Except.ok ({ obj with
      rotation_mode := RotMode.QUATERNION,
      rotation_quaternion := rot.mul obj.rotation_quaternion },
      OpResult.FINISHED) :=
  execute_eq_ok obj rot hrot

/-- Claim C8: the operator only reads the mesh: on every successful run
the vertex list (positions, normals, selection flags) and the world
matrix are unchanged; the only fields written are rotation_mode and
rotation_quaternion. -/
theorem execute_touches_only_rotation (obj obj1 : BlenderObject)
    (r : OpResult) (h : execute obj = Except.ok (obj1, r)) :
    obj1.vertices = obj.vertices ∧ obj1.matrix_world = obj.matrix_world := by
  cases hc : computeRotation obj with
  | error e =>
      rw [execute_eq_error obj e hc] at h
      exact absurd h (by simp)
  | ok rot =>
      rw [execute_eq_ok obj rot hc] at h
      have hp := Except.ok.inj h
      have h1 : ({ obj with
          rotation_mode := RotMode.QUATERNION,
          rotation_quaternion := rot.mul obj.rotation_quaternion }
          : BlenderObject) = obj1 := congrArg Prod.fst hp
      constructor
      · rw [← h1]
      · rw [← h1]

/-- Claim C9: the UV-projection operator invokes the smart UV unwrap if
and only if the active object has fewer than 40000 vertices; otherwise
no host call is made at all, and in both cases it returns FINISHED. -/
theorem uv_unwrap_vertex_guard (obj : BlenderObject) :
    (HostCall.smart_uv_project ∈ (customUVExecute obj).1
      ↔ obj.vertices.length < 40000)
    ∧ (customUVExecute obj).2 = OpResult.FINISHED := by
  by_cases h : obj.vertices.length < 40000 <;>
    simp [customUVExecute, h]

/-- Claim C10: in its cutting phase (first_call = false), when the number
of selected objects is not exactly two, CubeCutOperator.execute returns
CANCELLED immediately with no host call: no boolean modifier is added or
applied and no object is deleted. -/
theorem cubecut_cancels_without_two_selected (selected : List Nat)
    (active : Nat) (h : selected.length ≠ 2) :
    cubeCutExecute false selected active = ([], OpResult.CANCELLED)
    ∧ CubeCutCall.modifiers_new_boolean
        ∉ (cubeCutExecute false selected active).1
    ∧ CubeCutCall.modifier_apply ∉ (cubeCutExecute false selected active).1
    ∧ CubeCutCall.object_delete ∉ (cubeCutExecute false selected active).1 := by
  simp [cubeCutExecute, h]

/-- Claim C6: with the identity world transform and a single selected
vertex of normal (0,0,-1) (the anti-parallel case), the solver returns
the quaternion (0, -1/sqrt 2, -1/sqrt 2, 0): a unit quaternion with zero
scalar part, i.e. a 180-degree rotation, and applying it maps (0,0,-1)
exactly onto (0,0,1). -/
theorem antiparallel_half_turn :
    computeRotation
      { vertices := [⟨⟨0, 0, 0⟩, ⟨0, 0, -1⟩, true⟩],
        matrix_world := Mat4.id4, rotation_mode := RotMode.EULER_XYZ,
        rotation_quaternion := Quat.one }
      = Except.ok ⟨0, -1 / Real.sqrt 2, -1 / Real.sqrt 2, 0⟩
    ∧ (⟨0, -1 / Real.sqrt 2, -1 / Real.sqrt 2, 0⟩ : Quat).w = 0
    ∧ (⟨0, -1 / Real.sqrt 2, -1 / Real.sqrt 2, 0⟩ : Quat).normSq = 1
    ∧ (⟨0, -1 / Real.sqrt 2, -1 / Real.sqrt 2, 0⟩ : Quat).rotate ⟨0, 0, -1⟩
        = upVec := by
  have h2 : Real.sqrt 2 * Real.sqrt 2 = 2 := Real.mul_self_sqrt (by norm_num)
  have h2pos : 0 < Real.sqrt 2 := Real.sqrt_pos.mpr (by norm_num)
  have ha : (-1 / Real.sqrt 2) * (-1 / Real.sqrt 2) = 1 / 2 := by
    rw [div_mul_div_comm, h2]
    norm_num
  refine ⟨?_, rfl, ?_, ?_⟩
  · have hsum := selectedNormalSum_single ⟨0, 0, 0⟩ ⟨0, 0, -1⟩
    have hdlen : (⟨0, 0, -1⟩ : Vec3).length = 1 := by
      unfold Vec3.length Vec3.normSq
      norm_num
    have hlen : (selectedNormalSum
        [(⟨⟨0, 0, 0⟩, ⟨0, 0, -1⟩, true⟩ : MeshVertex)]).length ≠ 0 := by
      rw [hsum, hdlen]; norm_num
    have hdet : (Mat4.id4.det4 : ℝ) ≠ 0 := by rw [Mat4.det4_id4]; norm_num
    rw [computeRotation_ok
      { vertices := [⟨⟨0, 0, 0⟩, ⟨0, 0, -1⟩, true⟩],
        matrix_world := Mat4.id4, rotation_mode := RotMode.EULER_XYZ,
        rotation_quaternion := Quat.one } hlen hdet]
    have hwn : worldNormalOf
      { vertices := [⟨⟨0, 0, 0⟩, ⟨0, 0, -1⟩, true⟩],
        matrix_world := Mat4.id4, rotation_mode := RotMode.EULER_XYZ,
        rotation_quaternion := Quat.one } = ⟨0, 0, -1⟩ := by
      simp only [worldNormalOf]
      rw [hsum, hdlen, Mat4.inv4m_id4, Mat4.transposed4_id4, Mat4.to3x3_id4]
      rw [show (⟨0, 0, -1⟩ : Vec3).divs 1 = ⟨0, 0, -1⟩ from by
        unfold Vec3.divs; ext <;> dsimp only <;> norm_num]
      exact Mat3.mulVec_id3 _
    rw [hwn]
    have hw1 : (⟨0, 0, -1⟩ : Vec3).normSq = 1 := by
      unfold Vec3.normSq; norm_num
    have hb : ¬ FLT_EPSILON < ((⟨0, 0, -1⟩ : Vec3).cross upVec).length := by
      rw [Vec3.cross_upVec]
      unfold Vec3.length Vec3.normSq FLT_EPSILON
      norm_num [Real.sqrt_zero]
    have hd : ¬ (0:ℝ) < (⟨0, 0, -1⟩ : Vec3).z := by norm_num
    rw [rd_deg_neg_eq ⟨0, 0, -1⟩ hw1 hb hd]
    have hor : ortho_v3 ⟨0, 0, -1⟩ = ⟨-1, -1, 0⟩ := by
      unfold ortho_v3
      rw [if_neg (by norm_num), if_neg (by norm_num)]
      ext <;> norm_num
    have hno : (⟨-1, -1, 0⟩ : Vec3).normalize
        = ⟨-1 / Real.sqrt 2, -1 / Real.sqrt 2, 0⟩ := by
      unfold Vec3.normalize Vec3.length Vec3.normSq
      ext <;> dsimp only <;> norm_num
    rw [hor, hno]
  · unfold Quat.normSq
    dsimp only
    rw [ha]
    norm_num
  · unfold Quat.rotate Quat.mul Quat.conj
    ext <;> dsimp only
    · unfold upVec; dsimp only; ring
    · unfold upVec; dsimp only; ring
    · unfold upVec; dsimp only; linear_combination 2 * ha

/-- Witness for C1 at a concrete input: one selected vertex with normal
(0,0,1) and the identity world matrix. -/
theorem orient_rotation_aligns_witness :
    (∃ v ∈ [(⟨⟨0, 0, 0⟩, ⟨0, 0, 1⟩, true⟩ : MeshVertex)], v.select = true)
    ∧ selectedNormalSum [(⟨⟨0, 0, 0⟩, ⟨0, 0, 1⟩, true⟩ : MeshVertex)]
        ≠ Vec3.zero
    ∧ Mat4.id4.isAffine
    ∧ Mat4.id4.to3x3.det3 ≠ 0
    ∧ ∃ rot : Quat,
        computeRotation ⟨[⟨⟨0, 0, 0⟩, ⟨0, 0, 1⟩, true⟩], Mat4.id4,
          RotMode.EULER_XYZ, Quat.one⟩ = Except.ok rot ∧
        1 - 1 / 100000 ≤ (rot.rotate (worldNormalOf
          ⟨[⟨⟨0, 0, 0⟩, ⟨0, 0, 1⟩, true⟩], Mat4.id4,
            RotMode.EULER_XYZ, Quat.one⟩).normalize).dot upVec := by
  have hsel : ∃ v ∈ [(⟨⟨0, 0, 0⟩, ⟨0, 0, 1⟩, true⟩ : MeshVertex)],
      v.select = true := ⟨⟨⟨0, 0, 0⟩, ⟨0, 0, 1⟩, true⟩, by simp, rfl⟩
  have hsum : selectedNormalSum [(⟨⟨0, 0, 0⟩, ⟨0, 0, 1⟩, true⟩ : MeshVertex)]
      ≠ Vec3.zero := by
    rw [selectedNormalSum_single]
    intro hcl
    have hz := congrArg Vec3.z hcl
    norm_num [Vec3.zero] at hz
  have haff : Mat4.id4.isAffine := ⟨rfl, rfl, rfl, rfl⟩
  have hdet : Mat4.id4.to3x3.det3 ≠ 0 := by
    rw [Mat4.to3x3_id4]
    norm_num [Mat3.det3, Mat3.id3]
  exact ⟨hsel, hsum, haff, hdet,
    orient_rotation_aligns _ hsel hsum haff hdet⟩

/-- Counterexample for C1 as stated: with a zero-scale (singular) affine
world transform and a valid non-empty selection, the solver raises
ValueError from Matrix.inverted() and computes no quaternion at all. -/
theorem orient_rotation_aligns_counterexample :
    computeRotation
      { vertices := [⟨⟨0, 0, 0⟩, ⟨0, 0, 1⟩, true⟩],
        matrix_world := ⟨0, 0, 0, 0, 0, 0, 0, 0, 0, 0, 0, 0, 0, 0, 0, 1⟩,
        rotation_mode := RotMode.EULER_XYZ, rotation_quaternion := Quat.one }
      = Except.error PyErr.valueError := by
  have hsum := selectedNormalSum_single ⟨0, 0, 0⟩ ⟨0, 0, 1⟩
  have hlen : ¬ (selectedNormalSum
      [(⟨⟨0, 0, 0⟩, ⟨0, 0, 1⟩, true⟩ : MeshVertex)]).length = 0 := by
    rw [hsum, upLit_length]; norm_num
  have hdet0 : (⟨0, 0, 0, 0, 0, 0, 0, 0, 0, 0, 0, 0, 0, 0, 0, 1⟩
      : Mat4).det4 = 0 := by
    unfold Mat4.det4 det3x3
    norm_num
  simp only [computeRotation, Mat4.inverted4]
  rw [if_neg hlen, if_pos hdet0]

/-- Witness for C2 at a concrete two-vertex mesh with nothing selected. -/
theorem empty_selection_raises_witness :
    (∀ v ∈ [(⟨⟨0, 0, 0⟩, ⟨0, 0, 1⟩, false⟩ : MeshVertex),
        ⟨⟨1, 0, 0⟩, ⟨1, 0, 0⟩, false⟩], v.select = false)
    ∧ execute ⟨[⟨⟨0, 0, 0⟩, ⟨0, 0, 1⟩, false⟩,
        ⟨⟨1, 0, 0⟩, ⟨1, 0, 0⟩, false⟩], Mat4.id4,
        RotMode.EULER_XYZ, Quat.one⟩
      = Except.error PyErr.zeroDivisionError := by
  have hall : ∀ v ∈ [(⟨⟨0, 0, 0⟩, ⟨0, 0, 1⟩, false⟩ : MeshVertex),
      ⟨⟨1, 0, 0⟩, ⟨1, 0, 0⟩, false⟩], v.select = false := by
    intro v hv
    simp only [List.mem_cons, List.not_mem_nil, or_false] at hv
    rcases hv with rfl | rfl <;> rfl
  exact ⟨hall, empty_selection_raises_zero_division _ hall⟩

/-- Counterexample for C2 as stated: on a concrete empty selection the
failure is the generic host ZeroDivisionError, not a distinct named
EmptySelectionError (no such class exists in the code). -/
theorem empty_selection_error_counterexample :
    execute ⟨[⟨⟨0, 0, 0⟩, ⟨0, 0, 1⟩, false⟩], Mat4.id4,
        RotMode.QUATERNION, Quat.one⟩
      = Except.error PyErr.zeroDivisionError := by
  apply execute_zero_sum
  apply selectedNormalSum_nil_selected
  intro v hv
  simp only [List.mem_cons, List.not_mem_nil, or_false] at hv
  subst hv
  rfl

/-- Witness for C3 at a concrete mesh with two selected vertices whose
normals (0,0,1) and (0,0,-1) cancel exactly. -/
theorem cancelling_normals_witness :
    (∃ v ∈ [(⟨⟨0, 0, 0⟩, ⟨0, 0, 1⟩, true⟩ : MeshVertex),
        ⟨⟨1, 0, 0⟩, ⟨0, 0, -1⟩, true⟩], v.select = true)
    ∧ selectedNormalSum [(⟨⟨0, 0, 0⟩, ⟨0, 0, 1⟩, true⟩ : MeshVertex),
        ⟨⟨1, 0, 0⟩, ⟨0, 0, -1⟩, true⟩] = Vec3.zero
    ∧ execute ⟨[⟨⟨0, 0, 0⟩, ⟨0, 0, 1⟩, true⟩,
        ⟨⟨1, 0, 0⟩, ⟨0, 0, -1⟩, true⟩], Mat4.id4,
        RotMode.EULER_XYZ, Quat.one⟩
      = Except.error PyErr.zeroDivisionError := by
  have hsel : ∃ v ∈ [(⟨⟨0, 0, 0⟩, ⟨0, 0, 1⟩, true⟩ : MeshVertex),
      ⟨⟨1, 0, 0⟩, ⟨0, 0, -1⟩, true⟩], v.select = true :=
    ⟨⟨⟨0, 0, 0⟩, ⟨0, 0, 1⟩, true⟩, by simp, rfl⟩
  have hsum : selectedNormalSum [(⟨⟨0, 0, 0⟩, ⟨0, 0, 1⟩, true⟩ : MeshVertex),
      ⟨⟨1, 0, 0⟩, ⟨0, 0, -1⟩, true⟩] = Vec3.zero := by
    unfold selectedNormalSum
    simp only [List.foldl_cons, List.foldl_nil, if_true]
    unfold Vec3.add Vec3.zero
    ext <;> dsimp only <;> norm_num
  exact ⟨hsel, hsum, cancelling_normals_raise_zero_division _ hsel hsum⟩

/-- Witness for C4 at a non-uniform scale (2,1,1) world matrix with a
selected normal (1,0,0). -/
theorem scale_matrix_witness :
    selectedNormalSum [(⟨⟨0, 0, 0⟩, ⟨1, 0, 0⟩, true⟩ : MeshVertex)]
        ≠ Vec3.zero
    ∧ (⟨2, 0, 0, 0, 0, 1, 0, 0, 0, 0, 1, 0, 0, 0, 0, 1⟩ : Mat4).isAffine
    ∧ (⟨2, 0, 0, 0, 0, 1, 0, 0, 0, 0, 1, 0, 0, 0, 0, 1⟩
        : Mat4).to3x3.det3 ≠ 0
    ∧ computeRotation ⟨[⟨⟨0, 0, 0⟩, ⟨1, 0, 0⟩, true⟩],
        ⟨2, 0, 0, 0, 0, 1, 0, 0, 0, 0, 1, 0, 0, 0, 0, 1⟩,
        RotMode.EULER_XYZ, Quat.one⟩
      = Except.ok (rotation_difference
        ((⟨2, 0, 0, 0, 0, 1, 0, 0, 0, 0, 1, 0, 0, 0, 0, 1⟩
            : Mat4).to3x3.inv3.transpose3.mulVec
          (selectedNormalSum
            [(⟨⟨0, 0, 0⟩, ⟨1, 0, 0⟩, true⟩ : MeshVertex)]).normalize).normalize
        upVec) := by
  have hsum : selectedNormalSum [(⟨⟨0, 0, 0⟩, ⟨1, 0, 0⟩, true⟩ : MeshVertex)]
      ≠ Vec3.zero := by
    rw [selectedNormalSum_single]
    intro hcl
    have hx := congrArg Vec3.x hcl
    norm_num [Vec3.zero] at hx
  have haff : (⟨2, 0, 0, 0, 0, 1, 0, 0, 0, 0, 1, 0, 0, 0, 0, 1⟩
      : Mat4).isAffine := ⟨rfl, rfl, rfl, rfl⟩
  have hdet : (⟨2, 0, 0, 0, 0, 1, 0, 0, 0, 0, 1, 0, 0, 0, 0, 1⟩
      : Mat4).to3x3.det3 ≠ 0 := by
    unfold Mat4.to3x3 Mat3.det3
    norm_num
  exact ⟨hsum, haff, hdet, orient_uses_inverse_transpose _ hsum haff hdet⟩

/-- Counterexample for C3 as stated: a selection whose normal sum has
magnitude 1e-9 (below the claimed 1e-8 threshold) does not fail with any
error - the solver returns FINISHED and a well-defined rotation. -/
theorem degenerate_normal_error_counterexample :
    execute ⟨[⟨⟨0, 0, 0⟩, ⟨1 / 1000000000, 0, 0⟩, true⟩], Mat4.id4,
        RotMode.EULER_XYZ, Quat.one⟩
      = Except.ok
        ({ vertices := [⟨⟨0, 0, 0⟩, ⟨1 / 1000000000, 0, 0⟩, true⟩],
           matrix_world := Mat4.id4,
           rotation_mode := RotMode.QUATERNION,
           rotation_quaternion :=
             ⟨Real.sqrt (1 / 2), 0, -Real.sqrt (1 / 2), 0⟩ },
         OpResult.FINISHED) := by
  have hrot : computeRotation ⟨[⟨⟨0, 0, 0⟩, ⟨1 / 1000000000, 0, 0⟩, true⟩],
      Mat4.id4, RotMode.EULER_XYZ, Quat.one⟩
      = Except.ok ⟨Real.sqrt (1 / 2), 0, -Real.sqrt (1 / 2), 0⟩ := by
    have hsum := selectedNormalSum_single ⟨0, 0, 0⟩ ⟨1 / 1000000000, 0, 0⟩
    have htlen : (⟨1 / 1000000000, 0, 0⟩ : Vec3).length = 1 / 1000000000 := by
      unfold Vec3.length Vec3.normSq
      dsimp only
      rw [show (1 / 1000000000 : ℝ) * (1 / 1000000000) + 0 * 0 + 0 * 0
          = (1 / 1000000000) ^ 2 from by ring]
      exact Real.sqrt_sq (by norm_num)
    have hlen : (selectedNormalSum
        [(⟨⟨0, 0, 0⟩, ⟨1 / 1000000000, 0, 0⟩, true⟩ : MeshVertex)]).length
        ≠ 0 := by
      rw [hsum, htlen]; norm_num
    have hdet : (Mat4.id4.det4 : ℝ) ≠ 0 := by rw [Mat4.det4_id4]; norm_num
    rw [computeRotation_ok ⟨[⟨⟨0, 0, 0⟩, ⟨1 / 1000000000, 0, 0⟩, true⟩],
      Mat4.id4, RotMode.EULER_XYZ, Quat.one⟩ hlen hdet]
    have hwn : worldNormalOf ⟨[⟨⟨0, 0, 0⟩, ⟨1 / 1000000000, 0, 0⟩, true⟩],
        Mat4.id4, RotMode.EULER_XYZ, Quat.one⟩ = ⟨1, 0, 0⟩ := by
      simp only [worldNormalOf]
      rw [hsum, htlen, Mat4.inv4m_id4, Mat4.transposed4_id4, Mat4.to3x3_id4]
      rw [show (⟨1 / 1000000000, 0, 0⟩ : Vec3).divs (1 / 1000000000)
          = ⟨1, 0, 0⟩ from by
        unfold Vec3.divs; ext <;> dsimp only <;> norm_num]
      exact Mat3.mulVec_id3 _
    rw [hwn]
    have hw1 : (⟨1, 0, 0⟩ : Vec3).normSq = 1 := by
      unfold Vec3.normSq; norm_num
    have hb : FLT_EPSILON < ((⟨1, 0, 0⟩ : Vec3).cross upVec).length := by
      rw [Vec3.cross_upVec]
      unfold Vec3.length Vec3.normSq FLT_EPSILON
      dsimp only
      norm_num [Real.sqrt_one]
    rw [rd_generic_eq ⟨1, 0, 0⟩ hw1 hb]
    have hhalf : Real.sqrt (1 / 2) * Real.sqrt (1 / 2) = 1 / 2 :=
      Real.mul_self_sqrt (by norm_num)
    have hpos : 0 < Real.sqrt (1 / 2) := Real.sqrt_pos.mpr (by norm_num)
    have harg : ((1 : ℝ) + (⟨1, 0, 0⟩ : Vec3).z) / 2 = 1 / 2 := by
      dsimp only; norm_num
    have hinv : 1 / (2 * Real.sqrt (1 / 2)) = Real.sqrt (1 / 2) := by
      rw [eq_comm, eq_div_iff (by positivity)]
      linear_combination 2 * hhalf
    refine congrArg Except.ok ?_
    ext <;> dsimp only <;> rw [harg]
    · norm_num [hinv]
    · rw [hinv]; ring
  rw [execute_eq_ok _ _ hrot]
  dsimp only
  rw [show Quat.mul ⟨Real.sqrt (1 / 2), 0, -Real.sqrt (1 / 2), 0⟩ Quat.one
      = ⟨Real.sqrt (1 / 2), 0, -Real.sqrt (1 / 2), 0⟩ from
    Quat.mul_one_right _]

/-- Witness for C5: with prior rotation (0,1,0,0) and computed rotation
one, the result is one * (0,1,0,0), a composition, not a replacement. -/
theorem execute_premultiplies_witness :
    computeRotation ⟨[⟨⟨0, 0, 0⟩, ⟨0, 0, 1⟩, true⟩], Mat4.id4,
        RotMode.EULER_XYZ, ⟨0, 1, 0, 0⟩⟩ = Except.ok Quat.one
    ∧ execute ⟨[⟨⟨0, 0, 0⟩, ⟨0, 0, 1⟩, true⟩], Mat4.id4,
        RotMode.EULER_XYZ, ⟨0, 1, 0, 0⟩⟩
      = Except.ok
        ({ vertices := [⟨⟨0, 0, 0⟩, ⟨0, 0, 1⟩, true⟩],
           matrix_world := Mat4.id4,
           rotation_mode := RotMode.QUATERNION,
           rotation_quaternion := Quat.one.mul ⟨0, 1, 0, 0⟩ },
         OpResult.FINISHED) :=
  ⟨computeRotation_up ⟨0, 0, 0⟩ RotMode.EULER_XYZ ⟨0, 1, 0, 0⟩,
   execute_premultiplies_rotation _ Quat.one
     (computeRotation_up ⟨0, 0, 0⟩ RotMode.EULER_XYZ ⟨0, 1, 0, 0⟩)⟩

/-- Witness for C7 at the already-aligned one-vertex mesh. -/
theorem orient_rerun_identity_witness :
    selectedNormalSum [(⟨⟨0, 0, 0⟩, ⟨0, 0, 1⟩, true⟩ : MeshVertex)]
        ≠ Vec3.zero
    ∧ Mat4.id4.isAffine
    ∧ Mat4.id4.to3x3.det3 ≠ 0
    ∧ computeRotation ⟨[⟨⟨0, 0, 0⟩, ⟨0, 0, 1⟩, true⟩], Mat4.id4,
        RotMode.AXIS_ANGLE, Quat.one⟩ = Except.ok Quat.one
    ∧ computeRotation { (⟨[⟨⟨0, 0, 0⟩, ⟨0, 0, 1⟩, true⟩], Mat4.id4,
          RotMode.AXIS_ANGLE, Quat.one⟩ : BlenderObject) with
        matrix_world := rotatedWorld Quat.one Mat4.id4,
        rotation_mode := RotMode.QUATERNION,
        rotation_quaternion := Quat.one.mul Quat.one }
      = Except.ok Quat.one := by
  have hsum : selectedNormalSum [(⟨⟨0, 0, 0⟩, ⟨0, 0, 1⟩, true⟩ : MeshVertex)]
      ≠ Vec3.zero := by
    rw [selectedNormalSum_single]
    intro hcl
    have hz := congrArg Vec3.z hcl
    norm_num [Vec3.zero] at hz
  have haff : Mat4.id4.isAffine := ⟨rfl, rfl, rfl, rfl⟩
  have hdet : Mat4.id4.to3x3.det3 ≠ 0 := by
    rw [Mat4.to3x3_id4]
    norm_num [Mat3.det3, Mat3.id3]
  have hrot := computeRotation_up ⟨0, 0, 0⟩ RotMode.AXIS_ANGLE Quat.one
  exact ⟨hsum, haff, hdet, hrot,
    orient_rerun_identity _ Quat.one hsum haff hdet hrot⟩

/-- Witness for C8: a concrete successful run leaving vertices and world
matrix unchanged. -/
theorem execute_frame_witness :
    execute ⟨[⟨⟨0, 0, 0⟩, ⟨0, 0, 1⟩, true⟩], Mat4.id4,
        RotMode.AXIS_ANGLE, ⟨0, 0, 1, 0⟩⟩
      = Except.ok
        ({ vertices := [⟨⟨0, 0, 0⟩, ⟨0, 0, 1⟩, true⟩],
           matrix_world := Mat4.id4,
           rotation_mode := RotMode.QUATERNION,
           rotation_quaternion := Quat.one.mul ⟨0, 0, 1, 0⟩ },
         OpResult.FINISHED)
    ∧ ({ vertices := [⟨⟨0, 0, 0⟩, ⟨0, 0, 1⟩, true⟩],
         matrix_world := Mat4.id4,
         rotation_mode := RotMode.QUATERNION,
         rotation_quaternion := Quat.one.mul ⟨0, 0, 1, 0⟩ }
        : BlenderObject).vertices
      = (⟨[⟨⟨0, 0, 0⟩, ⟨0, 0, 1⟩, true⟩], Mat4.id4,
          RotMode.AXIS_ANGLE, ⟨0, 0, 1, 0⟩⟩ : BlenderObject).vertices
    ∧ ({ vertices := [⟨⟨0, 0, 0⟩, ⟨0, 0, 1⟩, true⟩],
         matrix_world := Mat4.id4,
         rotation_mode := RotMode.QUATERNION,
         rotation_quaternion := Quat.one.mul ⟨0, 0, 1, 0⟩ }
        : BlenderObject).matrix_world
      = (⟨[⟨⟨0, 0, 0⟩, ⟨0, 0, 1⟩, true⟩], Mat4.id4,
          RotMode.AXIS_ANGLE, ⟨0, 0, 1, 0⟩⟩ : BlenderObject).matrix_world := by
  have hexec : execute ⟨[⟨⟨0, 0, 0⟩, ⟨0, 0, 1⟩, true⟩], Mat4.id4,
      RotMode.AXIS_ANGLE, ⟨0, 0, 1, 0⟩⟩
      = Except.ok
        ({ vertices := [⟨⟨0, 0, 0⟩, ⟨0, 0, 1⟩, true⟩],
           matrix_world := Mat4.id4,
           rotation_mode := RotMode.QUATERNION,
           rotation_quaternion := Quat.one.mul ⟨0, 0, 1, 0⟩ },
         OpResult.FINISHED) :=
    execute_eq_ok _ Quat.one
      (computeRotation_up ⟨0, 0, 0⟩ RotMode.AXIS_ANGLE ⟨0, 0, 1, 0⟩)
  refine ⟨hexec, ?_, ?_⟩
  · exact (execute_touches_only_rotation _ _ _ hexec).1
  · exact (execute_touches_only_rotation _ _ _ hexec).2

/-- Witness for C10 with three selected objects. -/
theorem cubecut_cancel_witness :
    ([1, 2, 3] : List Nat).length ≠ 2
    ∧ (cubeCutExecute false [1, 2, 3] 0 = ([], OpResult.CANCELLED)
      ∧ CubeCutCall.modifiers_new_boolean
          ∉ (cubeCutExecute false [1, 2, 3] 0).1
      ∧ CubeCutCall.modifier_apply ∉ (cubeCutExecute false [1, 2, 3] 0).1
      ∧ CubeCutCall.object_delete ∉ (cubeCutExecute false [1, 2, 3] 0).1) :=
  ⟨by norm_num,
   cubecut_cancels_without_two_selected [1, 2, 3] 0 (by norm_num)⟩
